import Mathlib

/-!
# pomodev: the session state machine of `main.go`

A shallow embedding of `model.Update` and of the model built in `main`,
together with the parts of the packages that main.go brings in
(`bubbles/key`, `bubbles/stopwatch`, `bubbles/timer`, `bubbletea`, `time`)
and that `Update` calls.  Their sources are not part of the repository;
their definitions below are marked as modelled.

Conventions.
* `time.Duration` is an `int64` count of nanoseconds; it is an `Int` here
  and `wrap64` is applied wherever the Go code does `int64` arithmetic.
* `float64` values are exact rationals.  The only float computation is
  `workTime.Seconds() * restRatio`; it is exact in `float64` whenever the
  elapsed time is a whole number of seconds (what a stopwatch with a
  one second interval accumulates), and the theorems about it are stated
  for whole seconds.
* The package-level id counters of `stopwatch` and `timer` (`nextID`) are
  threaded explicitly as `Globals`.
* A `tea.Cmd` is a value describing the message(s) it will deliver.
-/

namespace Pomodev

/-! ## package time -/

/-- Modelled from the spec: Go standard library `time.Duration` (not in the
repository), a count of nanoseconds. -/
abbrev Duration := Int

/-- Modelled from the spec: Go standard library `time.Second`, the one second
interval of the spec, in nanoseconds. -/
def Second : Duration := 1000000000

/-- Modelled from the spec: the two's complement wrap-around of Go `int64`
arithmetic (language semantics, not in the repository). -/
def wrap64 (x : Int) : Int := (x + 2 ^ 63) % 2 ^ 64 - 2 ^ 63

/-- Modelled from the spec: Go standard library `Duration.Seconds` (the
elapsed-work-seconds of the spec),
`float64(d / Second) + float64(d % Second) / 1e9`, where Go `/` and `%`
truncate toward zero. -/
def Duration.Seconds (d : Duration) : ℚ :=
  let sec := Int.tdiv d Second
  let nsec := Int.tmod d Second
  (sec : ℚ) + (nsec : ℚ) / 1000000000

/-- Modelled from the spec: the Go conversion `time.Duration(x)` of a float
(language semantics): the fraction is discarded, truncation toward zero. -/
def floatToDuration (x : ℚ) : Duration := Int.tdiv x.num (x.den : Int)

/-! ## package bubbles/key -/

namespace key

/-- Modelled from the spec: `key.Help` of the imported package `bubbles/key`
(not in the repository), the help text of a binding. -/
structure Help where
  Key : String
  Desc : String
  deriving DecidableEq, Repr

/-- Modelled from the spec: `key.Binding` of the imported package
`bubbles/key`, a user command with its keys and its availability flag; a
nil `keys` slice is the empty list. -/
structure Binding where
  keys : List String
  help : Help
  disabled : Bool
  deriving DecidableEq, Repr

/-- Modelled from the spec: `key.NewBinding(key.WithKeys(ks...),
key.WithHelp(k, desc))` of `bubbles/key`; a new binding is enabled. -/
def NewBinding (ks : List String) (k desc : String) : Binding :=
  { keys := ks, help := { Key := k, Desc := desc }, disabled := false }

/-- Modelled from the spec: `Binding.Enabled` of `bubbles/key`, the
availability of a command: `!b.disabled && b.keys != nil`. -/
def Binding.Enabled (b : Binding) : Bool := !b.disabled && !b.keys.isEmpty

/-- Modelled from the spec: `Binding.SetEnabled` of `bubbles/key`, enabling
or disabling a command: `b.disabled = !v`. -/
def Binding.SetEnabled (b : Binding) (v : Bool) : Binding := { b with disabled := !v }

/-- Modelled from the spec: `key.Matches(k, b)` of `bubbles/key` for one
binding, `k` being `msg.String()`: some key of the binding equals `k` and
the binding is enabled. -/
def Matches (k : String) (b : Binding) : Bool :=
  b.keys.any (fun v => decide (k = v) && b.Enabled)

end key

/-! ## package bubbletea -/

namespace tea

/-- Modelled from the spec: the events of the spec, which are the values of
`tea.Msg` (imported package `bubbletea`) that `Update` can receive, by
dynamic type. -/
inductive Msg where
  /-- Message `tea.KeyMsg`, identified by its `String()`. -/
  | KeyMsg (s : String)
  /-- Message `timer.TimeoutMsg{ID}`. -/
  | timerTimeoutMsg (ID : Int)
  /-- Message `timer.TickMsg{ID, tag, Timeout}`. -/
  | timerTickMsg (ID : Int) (tag : Int) (Timeout : Bool)
  /-- Message `timer.StartStopMsg{ID, running}`. -/
  | timerStartStopMsg (ID : Int) (running : Bool)
  /-- Message `stopwatch.TickMsg{ID, tag}`. -/
  | stopwatchTickMsg (ID : Int) (tag : Int)
  /-- Message `stopwatch.StartStopMsg{ID, running}`. -/
  | stopwatchStartStopMsg (ID : Int) (running : Bool)
  /-- Message `stopwatch.ResetMsg{ID}`. -/
  | stopwatchResetMsg (ID : Int)
  /-- Any message of another type (window size, mouse, ...). -/
  | other
  deriving DecidableEq, Repr

/-- Modelled from the spec: the effects of the spec, which are the values
of `tea.Cmd` (imported package `bubbletea`) that `Update` can return. -/
inductive Cmd where
  /-- The nil command. -/
  | none
  /-- Command `tea.Quit`. -/
  | Quit
  /-- Delivers the message at once. -/
  | send (msg : Msg)
  /-- Command `tea.Tick(interval, ...)`: delivers the message after `interval`. -/
  | Tick (interval : Duration) (msg : Msg)
  /-- Command `tea.Sequence(a, b)`. -/
  | Sequence (a b : Cmd)
  /-- Command `tea.Batch(a, b)`. -/
  | Batch (a b : Cmd)
  deriving DecidableEq, Repr

end tea

open tea (Msg Cmd)

/-- Modelled from the spec: the package-level `lastID` counters of the two
clock packages `stopwatch` and `timer`, from which `nextID` numbers the
clocks. -/
structure Globals where
  stopwatchLastID : Int
  timerLastID : Int
  deriving DecidableEq, Repr

/-! ## package bubbles/stopwatch -/

namespace stopwatch

/-- Modelled from the spec: the WorkClock, `stopwatch.Model` of the imported
package `bubbles/stopwatch` (not in the repository): accumulated duration
`d`, running flag, tick interval, and the id and tag that pair ticks with
their clock. -/
structure Model where
  d : Duration
  id : Int
  tag : Int
  running : Bool
  Interval : Duration
  deriving DecidableEq, Repr

/-- Modelled from the spec: `stopwatch.NewWithInterval`, a fresh stopped
WorkClock with zero elapsed time: `Model{Interval: interval, id: nextID()}`. -/
def NewWithInterval (g : Globals) (interval : Duration) : Globals × Model :=
  let id := g.stopwatchLastID + 1
  ({ g with stopwatchLastID := id },
   { d := 0, id := id, tag := 0, running := false, Interval := interval })

/-- Modelled from the spec: `stopwatch.Model.Elapsed`, the accumulated
duration. -/
def Model.Elapsed (m : Model) : Duration := m.d

/-- Modelled from the spec: the tick command of `bubbles/stopwatch`: after
`Interval`, `TickMsg{ID: id, tag: tag}`. -/
def tick (id tag : Int) (interval : Duration) : Cmd :=
  Cmd.Tick interval (Msg.stopwatchTickMsg id tag)

/-- Modelled from the spec: `stopwatch.Model.Start`, the start effect:
`StartStopMsg{running: true}` and then the first tick. -/
def Model.Start (m : Model) : Cmd :=
  Cmd.Sequence (Cmd.send (Msg.stopwatchStartStopMsg m.id true)) (tick m.id m.tag m.Interval)

/-- Modelled from the spec: `stopwatch.Model.Init`, which is `Start`. -/
def Model.Init (m : Model) : Cmd := m.Start

/-- Modelled from the spec: `stopwatch.Model.Stop`, the stop effect: a
command only, the receiver is not changed. -/
def Model.Stop (m : Model) : Cmd := Cmd.send (Msg.stopwatchStartStopMsg m.id false)

/-- Modelled from the spec: `stopwatch.Model.Reset`, the reset effect: a
command only, the receiver is not changed. -/
def Model.Reset (m : Model) : Cmd := Cmd.send (Msg.stopwatchResetMsg m.id)

/-- Modelled from the spec: `stopwatch.Model.Update` of the imported package:
a start/stop message sets the running flag, a reset message sets the
accumulated duration to zero, a tick of this clock while running adds the
interval and asks for the next tick. -/
def Model.Update (m : Model) (msg : Msg) : Model × Cmd :=
  match msg with
  | Msg.stopwatchStartStopMsg ID running =>
    if ID ≠ m.id then (m, Cmd.none) else ({ m with running := running }, Cmd.none)
  | Msg.stopwatchResetMsg ID =>
    if ID ≠ m.id then (m, Cmd.none) else ({ m with d := 0 }, Cmd.none)
  | Msg.stopwatchTickMsg ID tag =>
    if !m.running || decide (ID ≠ m.id) then (m, Cmd.none)
    else if 0 < tag ∧ tag ≠ m.tag then (m, Cmd.none)
    else
      let m := { m with d := wrap64 (m.d + m.Interval) }
      let m := { m with tag := m.tag + 1 }
      (m, tick m.id m.tag m.Interval)
  | _ => (m, Cmd.none)

end stopwatch

/-! ## package bubbles/timer -/

namespace timer

/-- Modelled from the spec: the RestClock, `timer.Model` of the imported
package `bubbles/timer` (not in the repository): remaining duration
`Timeout`, tick interval, running flag, id and tag. -/
structure Model where
  Timeout : Duration
  Interval : Duration
  id : Int
  tag : Int
  running : Bool
  deriving DecidableEq, Repr

/-- Modelled from the spec: `timer.NewWithInterval`, a fresh RestClock with
the given total duration and interval. -/
def NewWithInterval (g : Globals) (timeout interval : Duration) : Globals × Model :=
  let id := g.timerLastID + 1
  ({ g with timerLastID := id },
   { Timeout := timeout, Interval := interval, id := id, tag := 0, running := true })

/-- Modelled from the spec: `timer.Model.Timedout`: nothing remains. -/
def Model.Timedout (m : Model) : Bool := decide (m.Timeout ≤ 0)

/-- Modelled from the spec: `timer.Model.Running`: running and not timed
out. -/
def Model.Running (m : Model) : Bool := !(m.Timedout || !m.running)

/-- Modelled from the spec: the tick command of `bubbles/timer`: after
`Interval`, `TickMsg{ID, tag, Timeout}`. -/
def Model.tick (m : Model) : Cmd :=
  Cmd.Tick m.Interval (Msg.timerTickMsg m.id m.tag m.Timedout)

/-- Modelled from the spec: `timer.Model.Init`, the first tick. -/
def Model.Init (m : Model) : Cmd := m.tick

/-- Modelled from the spec: `timer.Model.Stop`, the stop effect: a command
only, the receiver is not changed. -/
def Model.Stop (m : Model) : Cmd := Cmd.send (Msg.timerStartStopMsg m.id false)

/-- Modelled from the spec: `timer.Model.timedout`, the expiry event once
the remaining duration has reached zero. -/
def Model.timedout (m : Model) : Cmd :=
  if !m.Timedout then Cmd.none else Cmd.send (Msg.timerTimeoutMsg m.id)

/-- Modelled from the spec: `timer.Model.Update` of the imported package: a
start/stop message sets the running flag, a tick of this clock while
running subtracts the interval and asks for the next tick and, when
nothing remains, for the expiry event. -/
def Model.Update (m : Model) (msg : Msg) : Model × Cmd :=
  match msg with
  | Msg.timerStartStopMsg ID running =>
    if ID ≠ 0 ∧ ID ≠ m.id then (m, Cmd.none)
    else
      let m := { m with running := running }
      (m, m.tick)
  | Msg.timerTickMsg ID tag _ =>
    if !m.Running || decide (ID ≠ 0 ∧ ID ≠ m.id) then (m, Cmd.none)
    else if 0 < tag ∧ tag ≠ m.tag then (m, Cmd.none)
    else
      let m := { m with Timeout := wrap64 (m.Timeout - m.Interval) }
      (m, Cmd.Batch m.tick m.timedout)
  | _ => (m, Cmd.none)

end timer

/-! ## package bubbles/help -/

namespace help

/-- Modelled from the spec: `help.Model` of the imported package
`bubbles/help` (not in the repository), without its colour styles. -/
structure Model where
  Width : Int
  ShowAll : Bool
  ShortSeparator : String
  FullSeparator : String
  Ellipsis : String
  deriving DecidableEq, Repr

/-- Modelled from the spec: `help.New` of `bubbles/help`. -/
def New : Model :=
  { Width := 0, ShowAll := false, ShortSeparator := " • ", FullSeparator := "    ",
    Ellipsis := "…" }

end help

/-! ## main.go -/

/-- Go `restRatio`. -/
def restRatio : ℚ := 5 / 20

/-- Go `APP_MODE`. -/
inductive APP_MODE where
  | APP_MODE_INIT
  | APP_MODE_WORK
  | APP_MODE_REST
  deriving DecidableEq, Repr

open APP_MODE

/-- Go `keymap`. -/
structure keymap where
  start : key.Binding
  finishWork : key.Binding
  finishRest : key.Binding
  reset : key.Binding
  quit : key.Binding
  deriving DecidableEq, Repr

/-- Go `model`. -/
structure model where
  mode : APP_MODE
  stopwatch : stopwatch.Model
  timer : timer.Model
  keymap : keymap
  help : help.Model
  quitting : Bool
  deriving DecidableEq, Repr

/-- The tail of `model.Update` (after the type switch): the message is
forwarded to the clock of the current mode. -/
def model.forward (g : Globals) (m : model) (msg : Msg) : Globals × model × Cmd :=
  match m.mode with
  | APP_MODE_WORK =>
    let r := m.stopwatch.Update msg
    (g, { m with stopwatch := r.1 }, r.2)
  | APP_MODE_REST =>
    let r := m.timer.Update msg
    (g, { m with timer := r.1 }, r.2)
  | APP_MODE_INIT => (g, m, Cmd.none)

/-- Go `model.Update`: the type switch on the message, the key switch in
the order quit, reset, finishWork, finishRest, start, and the forwarding
tail for everything not handled there. -/
def model.Update (g : Globals) (m : model) (msg : Msg) : Globals × model × Cmd :=
  match msg with
  | Msg.timerTimeoutMsg _ =>
    let m := { m with mode := APP_MODE_WORK }
    -- m.timer.Stop(): builds a command, which is dropped
    let m := { m with keymap := { m.keymap with finishWork := m.keymap.finishWork.SetEnabled true } }
    let m := { m with keymap := { m.keymap with finishRest := m.keymap.finishRest.SetEnabled false } }
    let r := stopwatch.NewWithInterval g Second
    let m := { m with stopwatch := r.2 }
    (r.1, m, m.stopwatch.Init)
  | Msg.KeyMsg k =>
    if key.Matches k m.keymap.quit then
      let m := { m with quitting := true }
      (g, m, Cmd.Quit)
    else if key.Matches k m.keymap.reset then
      if m.mode = APP_MODE_WORK then
        let m := { m with mode := APP_MODE_INIT }
        (g, m, m.stopwatch.Reset)
      else
        let m := { m with mode := APP_MODE_INIT }
        (g, m, m.timer.Stop)
    else if key.Matches k m.keymap.finishWork then
      let m := { m with mode := APP_MODE_REST }
      let workTime := m.stopwatch.Elapsed
      let restTime := workTime.Seconds * restRatio
      -- m.stopwatch.Stop(), m.stopwatch.Reset(): build commands, which are dropped
      let r := timer.NewWithInterval g (wrap64 (Second * floatToDuration restTime)) Second
      let m := { m with timer := r.2 }
      let m := { m with keymap := { m.keymap with finishWork := m.keymap.finishWork.SetEnabled false } }
      let m := { m with keymap := { m.keymap with finishRest := m.keymap.finishRest.SetEnabled true } }
      (r.1, m, m.timer.Init)
    else if key.Matches k m.keymap.finishRest then
      let m := { m with mode := APP_MODE_WORK }
      -- m.timer.Stop(): builds a command, which is dropped
      let m := { m with keymap := { m.keymap with finishWork := m.keymap.finishWork.SetEnabled true } }
      let m := { m with keymap := { m.keymap with finishRest := m.keymap.finishRest.SetEnabled false } }
      let r := stopwatch.NewWithInterval g Second
      let m := { m with stopwatch := r.2 }
      (r.1, m, m.stopwatch.Init)
    else if key.Matches k m.keymap.start then
      let m := { m with keymap := { m.keymap with start := m.keymap.start.SetEnabled false } }
      let m := { m with keymap := { m.keymap with finishWork := m.keymap.finishWork.SetEnabled true } }
      let m := { m with mode := APP_MODE_WORK }
      let r := stopwatch.NewWithInterval g Second
      let m := { m with stopwatch := r.2 }
      (r.1, m, m.stopwatch.Init)
    else model.forward g m msg
  | _ => model.forward g m msg

/-- Modelled from the spec: the text renderers of the packages that main.go
brings in (`stopwatch.Model.View`, `timer.Model.View` and
`help.Model.ShortHelpView`, whose sources are not in the repository).  The
rendering format is an external presentation concern, so they are
parameters of `View`. -/
structure Renderers where
  stopwatchView : stopwatch.Model → String
  timerView : timer.Model → String
  ShortHelpView : help.Model → List key.Binding → String

/-- Go `model.helpView`. -/
def model.helpView (r : Renderers) (m : model) : String :=
  "\n" ++ r.ShortHelpView m.help
    [m.keymap.start, m.keymap.finishWork, m.keymap.finishRest, m.keymap.reset, m.keymap.quit]

/-- Go `model.View`. -/
def model.View (r : Renderers) (m : model) : String :=
  let s := ""
  if !m.quitting then
    let s :=
      match m.mode with
      | APP_MODE_INIT => "You can start your work session any time" ++ "\n"
      | APP_MODE_WORK =>
        let s := r.stopwatchView m.stopwatch ++ "\n"
        "Work session: " ++ s
      | APP_MODE_REST =>
        let s := r.timerView m.timer ++ "\n"
        "Rest session: " ++ s
    s ++ m.helpView r
  else s

/-- The keymap literal of `main`. -/
def mainKeymap : keymap :=
  { start := key.NewBinding ["s"] "s" "start",
    finishWork := key.NewBinding ["s"] "s" "finish work",
    finishRest := key.NewBinding ["s"] "s" "finish rest",
    reset := key.NewBinding ["r"] "r" "reset",
    quit := key.NewBinding ["ctrl+c", "q"] "q" "quit" }

/-- The program state: the package counters and the model. -/
abbrev State := Globals × model

/-- The state with which `main` hands the model to the runtime: the struct
literal followed by the three `SetEnabled(false)` calls. -/
def mainState : State :=
  let g : Globals := { stopwatchLastID := 0, timerLastID := 0 }
  let sw := stopwatch.NewWithInterval g Second
  let tm := timer.NewWithInterval sw.1 1 Second
  let m : model :=
    { mode := APP_MODE_INIT, stopwatch := sw.2, timer := tm.2, keymap := mainKeymap,
      help := help.New, quitting := false }
  let m := { m with keymap := { m.keymap with finishWork := m.keymap.finishWork.SetEnabled false } }
  let m := { m with keymap := { m.keymap with finishRest := m.keymap.finishRest.SetEnabled false } }
  let m := { m with keymap := { m.keymap with reset := m.keymap.reset.SetEnabled false } }
  (tm.1, m)

/-- One turn of the runtime loop: `Update` on the next message, the
returned command set aside. -/
def step (s : State) (msg : Msg) : State :=
  let r := model.Update s.1 s.2 msg
  (r.1, r.2.1)

/-- The state after a finite sequence of messages. -/
def run (s : State) (msgs : List Msg) : State := msgs.foldl step s

/-- A clock tick message of either clock. -/
def isTick : Msg → Bool
  | Msg.stopwatchTickMsg _ _ => true
  | Msg.timerTickMsg _ _ _ => true
  | _ => false

/-- A rest-timer expiry message. -/
def isTimeout : Msg → Bool
  | Msg.timerTimeoutMsg _ => true
  | _ => false

/-! ## Specification vocabulary -/

/-- The bindings are wired as in `main` (keys of the three `s` bindings,
the quit binding untouched, the reset binding still disabled) and the
enablement of start, finishWork and finishRest follows the mode. -/
def Wired (m : model) : Prop :=
  m.keymap.quit = mainKeymap.quit ∧
  m.keymap.reset = mainKeymap.reset.SetEnabled false ∧
  m.keymap.start.keys = ["s"] ∧
  m.keymap.finishWork.keys = ["s"] ∧
  m.keymap.finishRest.keys = ["s"] ∧
  m.keymap.start.disabled = !decide (m.mode = APP_MODE_INIT) ∧
  m.keymap.finishWork.disabled = !decide (m.mode = APP_MODE_WORK) ∧
  m.keymap.finishRest.disabled = !decide (m.mode = APP_MODE_REST)

/-- The mode cycle of the specification: `s` moves Idle to Working, Working
to Resting and Resting to Working; an expiry moves to Working; every other
message keeps the mode. -/
def nextMode (mode : APP_MODE) (msg : Msg) : APP_MODE :=
  if msg = Msg.KeyMsg "s" then
    match mode with
    | APP_MODE_INIT => APP_MODE_WORK
    | APP_MODE_WORK => APP_MODE_REST
    | APP_MODE_REST => APP_MODE_WORK
  else if isTimeout msg then APP_MODE_WORK
  else mode

/-- The mode the specification predicts after `n` presses of `s`. -/
def modeAfterPresses (n : Nat) : APP_MODE :=
  if n = 0 then APP_MODE_INIT else if n % 2 = 1 then APP_MODE_WORK else APP_MODE_REST

/-- States reachable from the model of `main` by any messages, expiry
messages being delivered only while the mode is Resting. -/
inductive Reachable : State → Prop where
  | init : Reachable mainState
  | next (s : State) (msg : Msg) :
      Reachable s → (isTimeout msg = true → s.2.mode = APP_MODE_REST) → Reachable (step s msg)

/-- Availability of start, finishWork and finishRest matches the mode. -/
def CoreConsistent (m : model) : Prop :=
  (m.keymap.start.Enabled = true ↔ m.mode = APP_MODE_INIT) ∧
  (m.keymap.finishWork.Enabled = true ↔ m.mode = APP_MODE_WORK) ∧
  (m.keymap.finishRest.Enabled = true ↔ m.mode = APP_MODE_REST)

/-- Availability of all four commands matches the mode, reset being
available exactly in Working and Resting. -/
def Consistent (m : model) : Prop :=
  CoreConsistent m ∧
  (m.keymap.reset.Enabled = true ↔ (m.mode = APP_MODE_WORK ∨ m.mode = APP_MODE_REST))

/-- Deciding `CoreConsistent`. -/
instance (m : model) : Decidable (CoreConsistent m) := by
  unfold CoreConsistent; infer_instance

/-- Deciding `Consistent`. -/
instance (m : model) : Decidable (Consistent m) := by
  unfold Consistent; infer_instance

/-- The state after `s` (start) and then `n` seconds of work as the runtime
delivers them: the `StartStopMsg` of the start command, then the ticks of
the new stopwatch (id 2), tagged 0, 1, ... -/
def workedSeconds (n : Nat) : State :=
  run mainState (Msg.KeyMsg "s" :: Msg.stopwatchStartStopMsg 2 true ::
    (List.range n).map (fun i => Msg.stopwatchTickMsg 2 i))

/-- The message makes `Update` take one of its three branches that enter
Working: the expiry branch, or the finishRest or start case of the key
switch (quit, reset and finishWork, which come first, not matching). -/
def entersWorking (m : model) : Msg → Bool
  | Msg.timerTimeoutMsg _ => true
  | Msg.KeyMsg k =>
    !key.Matches k m.keymap.quit && !key.Matches k m.keymap.reset &&
      !key.Matches k m.keymap.finishWork &&
      (key.Matches k m.keymap.finishRest || key.Matches k m.keymap.start)
  | _ => false

/-- The message is handled by no branch of the type switch of `Update`: it
is not an expiry and not a key press that an enabled binding matches. -/
def unhandled (m : model) : Msg → Bool
  | Msg.timerTimeoutMsg _ => false
  | Msg.KeyMsg k =>
    !key.Matches k m.keymap.quit && !key.Matches k m.keymap.reset &&
      !key.Matches k m.keymap.finishWork && !key.Matches k m.keymap.finishRest &&
      !key.Matches k m.keymap.start
  | _ => true

/-- The keys are those of `main`, the reset binding is still disabled, the
finishWork and finishRest flags follow the mode, and start is switched on
in Idle: what every message preserves from the model of `main` on, expiry
messages in any mode included (after an expiry in Idle start stays on). -/
def Live (m : model) : Prop :=
  m.keymap.quit = mainKeymap.quit ∧
  m.keymap.reset = mainKeymap.reset.SetEnabled false ∧
  m.keymap.start.keys = ["s"] ∧
  m.keymap.finishWork.keys = ["s"] ∧
  m.keymap.finishRest.keys = ["s"] ∧
  m.keymap.finishWork.disabled = !decide (m.mode = APP_MODE_WORK) ∧
  m.keymap.finishRest.disabled = !decide (m.mode = APP_MODE_REST) ∧
  (m.mode = APP_MODE_INIT → m.keymap.start.disabled = false)

/-- A Working state with the reset binding switched on, as the
specification expects after start (the code never produces it): the state
after `s` with `reset.SetEnabled(true)` applied. -/
def workingWithReset : State :=
  let s := step mainState (Msg.KeyMsg "s")
  (s.1, { s.2 with keymap := { s.2.keymap with reset := s.2.keymap.reset.SetEnabled true } })

/-! ## Lemmas on `Update` -/

theorem Matches_single (k x : String) (b : key.Binding) (h : b.keys = [x]) :
    key.Matches k b = (decide (k = x) && !b.disabled) := by
  simp [key.Matches, key.Binding.Enabled, h]

theorem forward_frame (g : Globals) (m : model) (msg : Msg) :
    (model.forward g m msg).1 = g ∧
    (model.forward g m msg).2.1.mode = m.mode ∧
    (model.forward g m msg).2.1.keymap = m.keymap ∧
    (model.forward g m msg).2.1.quitting = m.quitting ∧
    (model.forward g m msg).2.1.help = m.help := by
  unfold model.forward
  cases h : m.mode <;> simp [h]

theorem Update_unmatched (g : Globals) (m : model) (k : String)
    (hq : key.Matches k m.keymap.quit = false) (hr : key.Matches k m.keymap.reset = false)
    (hw : key.Matches k m.keymap.finishWork = false)
    (hf : key.Matches k m.keymap.finishRest = false)
    (hs : key.Matches k m.keymap.start = false) :
    model.Update g m (Msg.KeyMsg k) = model.forward g m (Msg.KeyMsg k) := by
  simp [model.Update, hq, hr, hw, hf, hs]

theorem Update_nonkey (g : Globals) (m : model) (msg : Msg)
    (hk : ∀ k, msg ≠ Msg.KeyMsg k) (ht : isTimeout msg = false) :
    model.Update g m msg = model.forward g m msg := by
  cases msg <;> simp_all [model.Update, isTimeout]

theorem Wired_matches (m : model) (h : Wired m) (k : String) :
    key.Matches k m.keymap.quit = (decide (k = "ctrl+c") || decide (k = "q")) ∧
    key.Matches k m.keymap.reset = false ∧
    key.Matches k m.keymap.finishWork = (decide (k = "s") && decide (m.mode = APP_MODE_WORK)) ∧
    key.Matches k m.keymap.finishRest = (decide (k = "s") && decide (m.mode = APP_MODE_REST)) ∧
    key.Matches k m.keymap.start = (decide (k = "s") && decide (m.mode = APP_MODE_INIT)) := by
  obtain ⟨hq, hr, h1, h2, h3, h4, h5, h6⟩ := h
  refine ⟨?_, ?_, ?_, ?_, ?_⟩
  · rw [hq]; simp [key.Matches, key.Binding.Enabled, mainKeymap, key.NewBinding]
  · rw [hr]; simp [key.Matches, key.Binding.Enabled, key.Binding.SetEnabled]
  · rw [Matches_single k "s" _ h2, h5]; simp
  · rw [Matches_single k "s" _ h3, h6]; simp
  · rw [Matches_single k "s" _ h1, h4]; simp

theorem Wired_step (g : Globals) (m : model) (msg : Msg) (h : Wired m)
    (ht : isTimeout msg = true → m.mode = APP_MODE_REST) :
    Wired (model.Update g m msg).2.1 ∧ (model.Update g m msg).2.1.mode = nextMode m.mode msg := by
  have hW := h
  obtain ⟨hq, hr, h1, h2, h3, h4, h5, h6⟩ := h
  cases msg with
  | KeyMsg k =>
    obtain ⟨mq, mr, mw, mf, ms⟩ := Wired_matches m hW k
    by_cases hs : k = "s"
    · subst hs
      cases hm : m.mode <;>
        simp_all [model.Update, Wired, nextMode, key.Binding.SetEnabled,
          model.forward, isTimeout, stopwatch.NewWithInterval, timer.NewWithInterval]
    · by_cases hq : k = "q" ∨ k = "ctrl+c"
      · have : (decide (k = "ctrl+c") || decide (k = "q")) = true := by
          rcases hq with hq | hq <;> simp [hq]
        rw [this] at mq
        simp_all [model.Update, Wired, nextMode, isTimeout]
      · push_neg at hq
        have hf := forward_frame g m (Msg.KeyMsg k)
        rw [Update_unmatched g m k (by simp [mq, hq]) mr (by simp [mw, hs]) (by simp [mf, hs])
          (by simp [ms, hs])]
        simp_all [Wired, nextMode, isTimeout]
  | timerTimeoutMsg id =>
    have := ht rfl
    simp_all [model.Update, Wired, nextMode, key.Binding.SetEnabled, isTimeout,
      stopwatch.NewWithInterval]
  | _ =>
    have hf := forward_frame g m
    rw [Update_nonkey g m _ (by simp) (by simp [isTimeout])]
    simp_all [Wired, nextMode, isTimeout]


theorem run_snoc (s : State) (l : List Msg) (e : Msg) : run s (l ++ [e]) = step (run s l) e := by
  simp [run, List.foldl_append]

theorem Wired_mainState : Wired mainState.2 := by
  simp [Wired, mainState, mainKeymap, key.NewBinding, key.Binding.SetEnabled]

theorem nextMode_press (n : Nat) :
    nextMode (modeAfterPresses n) (Msg.KeyMsg "s") = modeAfterPresses (n + 1) := by
  unfold modeAfterPresses nextMode
  rcases Nat.even_or_odd n with h | h
  · have h2 : n % 2 = 0 := Nat.even_iff.mp h
    have h3 : (n + 1) % 2 = 1 := by omega
    by_cases h0 : n = 0
    · subst h0; simp
    · simp [h0, h2, h3]
  · have h2 : n % 2 = 1 := Nat.odd_iff.mp h
    have h3 : (n + 1) % 2 = 0 := by omega
    have h0 : n ≠ 0 := by omega
    simp [h0, h2, h3]

theorem nextMode_tick (mode : APP_MODE) (e : Msg) (h : isTick e = true) : nextMode mode e = mode := by
  cases e <;> simp_all [nextMode, isTick, isTimeout]

theorem run_presses_ticks (evs : List Msg)
    (h : ∀ e ∈ evs, e = Msg.KeyMsg "s" ∨ isTick e = true) :
    Wired (run mainState evs).2 ∧
      (run mainState evs).2.mode = modeAfterPresses (evs.count (Msg.KeyMsg "s")) := by
  induction evs using List.reverseRecOn with
  | nil => exact ⟨Wired_mainState, by decide⟩
  | append_singleton l e ih =>
    have hl : ∀ x ∈ l, x = Msg.KeyMsg "s" ∨ isTick x = true :=
      fun x hx => h x (List.mem_append_left _ hx)
    obtain ⟨hw, hm⟩ := ih hl
    have he := h e (List.mem_append_right _ (List.mem_singleton_self e))
    have hto : isTimeout e = true → (run mainState l).2.mode = APP_MODE_REST := by
      rcases he with he | he
      · subst he; simp [isTimeout]
      · cases e <;> simp_all [isTick, isTimeout]
    obtain ⟨hw2, hm2⟩ := Wired_step (run mainState l).1 (run mainState l).2 e hw hto
    rw [run_snoc]
    refine ⟨hw2, ?_⟩
    show (model.Update (run mainState l).1 (run mainState l).2 e).2.1.mode = _
    rw [hm2, hm, List.count_append]
    rcases he with he | he
    · subst he
      simpa using nextMode_press _
    · have hne : e ≠ Msg.KeyMsg "s" := by
        intro hc; subst hc; simp [isTick] at he
      rw [nextMode_tick _ _ he]
      simp [List.count_singleton, hne]


theorem wrap64_of_range (x : Int) (h1 : -2 ^ 63 ≤ x) (h2 : x < 2 ^ 63) : wrap64 x = x := by
  unfold wrap64
  norm_num at h1 h2 ⊢
  omega

theorem Seconds_whole (E : ℕ) : Duration.Seconds ((E : Int) * Second) = (E : ℚ) := by
  have hs : (0 : Int) ≤ Second := by decide
  have h1 : Int.tdiv ((E : Int) * Second) Second = E := by
    rw [Int.tdiv_eq_ediv (Int.mul_nonneg (Int.ofNat_nonneg _) hs) hs]
    exact Int.mul_ediv_cancel _ (by decide)
  have h2 : Int.tmod ((E : Int) * Second) Second = 0 := by
    rw [Int.tmod_eq_emod (Int.mul_nonneg (Int.ofNat_nonneg _) hs) hs]
    exact Int.mul_emod_left _ _
  simp only [Duration.Seconds, h1, h2]
  simp

theorem floor_quarter (E : ℕ) : ⌊(E : ℚ) * restRatio⌋ = ((E / 4 : ℕ) : Int) := by
  have : (E : ℚ) * restRatio = ((E : Int) : ℚ) / ((4 : ℕ) : ℚ) := by
    unfold restRatio; push_cast; ring
  rw [this, Rat.floor_intCast_div_natCast]
  norm_cast

theorem floatToDuration_quarter (E : ℕ) :
    floatToDuration ((E : ℚ) * restRatio) = ((E / 4 : ℕ) : Int) := by
  have hx : (0 : ℚ) ≤ (E : ℚ) * restRatio := by unfold restRatio; positivity
  rw [← floor_quarter]
  unfold floatToDuration
  rw [Int.tdiv_eq_ediv (Rat.num_nonneg.mpr hx) (Int.ofNat_nonneg _), ← Rat.floor_def]

theorem quarter_exact_iff (E : ℕ) : ((E / 4 : ℕ) : ℚ) = (E : ℚ) * restRatio ↔ E % 4 = 0 := by
  unfold restRatio
  constructor
  · intro h
    have h2 : (((E / 4 : ℕ) * 4 : ℕ) : ℚ) = (E : ℚ) := by push_cast; rw [h]; ring
    have h3 : (E / 4) * 4 = E := by exact_mod_cast h2
    omega
  · intro h
    have h3 : E = (E / 4) * 4 := by omega
    have h2 : (E : ℚ) = ((E / 4 : ℕ) : ℚ) * 4 := by exact_mod_cast h3
    rw [h2]
    ring

theorem Update_finishWork (g : Globals) (m : model) (k : String)
    (hq : key.Matches k m.keymap.quit = false) (hr : key.Matches k m.keymap.reset = false)
    (hw : key.Matches k m.keymap.finishWork = true) :
    (model.Update g m (Msg.KeyMsg k)).2.1.mode = APP_MODE_REST ∧
    (model.Update g m (Msg.KeyMsg k)).2.1.timer =
      { Timeout := wrap64 (Second * floatToDuration (m.stopwatch.Elapsed.Seconds * restRatio)),
        Interval := Second, id := g.timerLastID + 1, tag := 0, running := true } := by
  simp [model.Update, hq, hr, hw, timer.NewWithInterval]

theorem finishWork_whole (g : Globals) (m : model) (k : String) (E : ℕ)
    (hq : key.Matches k m.keymap.quit = false) (hr : key.Matches k m.keymap.reset = false)
    (hw : key.Matches k m.keymap.finishWork = true)
    (hE : m.stopwatch.Elapsed = (E : Int) * Second) (hrange : (E : Int) * Second < 2 ^ 63) :
    (model.Update g m (Msg.KeyMsg k)).2.1.timer =
      { Timeout := ((E / 4 : ℕ) : Int) * Second,
        Interval := Second, id := g.timerLastID + 1, tag := 0, running := true } := by
  rw [(Update_finishWork g m k hq hr hw).2, hE, Seconds_whole, floatToDuration_quarter]
  have h4 : ((E / 4 : ℕ) : Int) ≤ E := by exact_mod_cast Nat.div_le_self E 4
  have h0 : (0 : Int) ≤ ((E / 4 : ℕ) : Int) := Int.ofNat_nonneg _
  have hS : Second = 1000000000 := rfl
  rw [hS] at hrange ⊢
  rw [wrap64_of_range _ (by norm_num; omega) (by norm_num at hrange ⊢; omega), mul_comm]


theorem Matches_enabled (k : String) (b : key.Binding) (h : key.Matches k b = true) :
    b.Enabled = true := by
  simp only [key.Matches, List.any_eq_true, Bool.and_eq_true] at h
  obtain ⟨_, _, _, h⟩ := h
  exact h

theorem Enabled_SetEnabled_true (b : key.Binding) (h : b.keys ≠ []) :
    (b.SetEnabled true).Enabled = true := by
  simp [key.Binding.Enabled, key.Binding.SetEnabled, h]

theorem Enabled_SetEnabled_false (b : key.Binding) : (b.SetEnabled false).Enabled = false := by
  simp [key.Binding.Enabled, key.Binding.SetEnabled]

theorem Wired_CoreConsistent (m : model) (h : Wired m) : CoreConsistent m := by
  obtain ⟨_, _, h1, h2, h3, h4, h5, h6⟩ := h
  simp [CoreConsistent, key.Binding.Enabled, h1, h2, h3, h4, h5, h6]

theorem Reachable_Wired (s : State) (h : Reachable s) : Wired s.2 := by
  induction h with
  | init => exact Wired_mainState
  | next s msg _ ht ih => exact (Wired_step s.1 s.2 msg ih ht).1

theorem Update_timeout (g : Globals) (m : model) (id : Int) :
    model.Update g m (Msg.timerTimeoutMsg id) =
      ({ g with stopwatchLastID := g.stopwatchLastID + 1 },
       { m with
          mode := APP_MODE_WORK
          keymap := { m.keymap with
            finishWork := m.keymap.finishWork.SetEnabled true
            finishRest := m.keymap.finishRest.SetEnabled false }
          stopwatch :=
            { d := 0, id := g.stopwatchLastID + 1, tag := 0, running := false, Interval := Second } },
       Cmd.Sequence (Cmd.send (Msg.stopwatchStartStopMsg (g.stopwatchLastID + 1) true))
         (Cmd.Tick Second (Msg.stopwatchTickMsg (g.stopwatchLastID + 1) 0))) := by
  rfl

theorem Update_finishRest (g : Globals) (m : model) (k : String)
    (hq : key.Matches k m.keymap.quit = false) (hr : key.Matches k m.keymap.reset = false)
    (hw : key.Matches k m.keymap.finishWork = false)
    (hf : key.Matches k m.keymap.finishRest = true) (id : Int) :
    model.Update g m (Msg.KeyMsg k) = model.Update g m (Msg.timerTimeoutMsg id) := by
  simp [model.Update, hq, hr, hw, hf]

theorem core_preserved (g : Globals) (m : model) (msg : Msg)
    (hk : m.keymap.finishWork.keys ≠ [] ∧ m.keymap.finishRest.keys ≠ [])
    (hc : CoreConsistent m)
    (ht : isTimeout msg = true → m.mode ≠ APP_MODE_INIT)
    (hr : ∀ k, msg = Msg.KeyMsg k → key.Matches k m.keymap.reset = false) :
    CoreConsistent (model.Update g m msg).2.1 := by
  obtain ⟨hkw, hkf⟩ := hk
  obtain ⟨c1, c2, c3⟩ := hc
  have ew := Enabled_SetEnabled_true _ hkw
  have ef := Enabled_SetEnabled_true _ hkf
  have dw := Enabled_SetEnabled_false m.keymap.finishWork
  have df := Enabled_SetEnabled_false m.keymap.finishRest
  have ds := Enabled_SetEnabled_false m.keymap.start
  cases msg with
  | timerTimeoutMsg id =>
    have hne := ht rfl
    rw [Update_timeout]
    simp only [CoreConsistent, ew, df, c1]
    simp [hne]
  | KeyMsg k =>
    have hr := hr k rfl
    by_cases hq : key.Matches k m.keymap.quit = true
    · simp [model.Update, hq, CoreConsistent, c1, c2, c3]
    · by_cases hw : key.Matches k m.keymap.finishWork = true
      · have hm := c2.mp (Matches_enabled _ _ hw)
        simp [model.Update, hq, hr, hw, CoreConsistent, ef, dw, c1, hm]
      · by_cases hf : key.Matches k m.keymap.finishRest = true
        · have hm := c3.mp (Matches_enabled _ _ hf)
          simp [model.Update, hq, hr, hw, hf, CoreConsistent, ew, df, c1, hm]
        · by_cases hs : key.Matches k m.keymap.start = true
          · have hm := c1.mp (Matches_enabled _ _ hs)
            have hfr : m.keymap.finishRest.Enabled = false := by
              cases h : m.keymap.finishRest.Enabled
              · rfl
              · have := c3.mp h; rw [hm] at this; exact absurd this (by decide)
            simp [model.Update, hq, hr, hw, hf, hs, CoreConsistent, ew, ds, hfr]
          · have hfw := forward_frame g m (Msg.KeyMsg k)
            rw [Update_unmatched g m k (by simpa using hq) hr (by simpa using hw)
              (by simpa using hf) (by simpa using hs)]
            obtain ⟨_, f1, f2, _⟩ := hfw
            simp [CoreConsistent, f1, f2, c1, c2, c3]
  | _ =>
    have hfw := forward_frame g m
    rw [Update_nonkey g m _ (by simp) (by simp [isTimeout])]
    simp [CoreConsistent, hfw, c1, c2, c3]



theorem Update_quit (g : Globals) (m : model) (k : String)
    (hq : key.Matches k m.keymap.quit = true) :
    model.Update g m (Msg.KeyMsg k) = (g, { m with quitting := true }, Cmd.Quit) := by
  simp [model.Update, hq]

theorem Update_reset (g : Globals) (m : model) (k : String)
    (hq : key.Matches k m.keymap.quit = false) (hr : key.Matches k m.keymap.reset = true) :
    model.Update g m (Msg.KeyMsg k) =
      (g, { m with mode := APP_MODE_INIT },
       if m.mode = APP_MODE_WORK then m.stopwatch.Reset else m.timer.Stop) := by
  by_cases h : m.mode = APP_MODE_WORK <;> simp [model.Update, hq, hr, h]

theorem Update_start (g : Globals) (m : model) (k : String)
    (hq : key.Matches k m.keymap.quit = false) (hr : key.Matches k m.keymap.reset = false)
    (hw : key.Matches k m.keymap.finishWork = false)
    (hf : key.Matches k m.keymap.finishRest = false)
    (hs : key.Matches k m.keymap.start = true) :
    model.Update g m (Msg.KeyMsg k) =
      ((stopwatch.NewWithInterval g Second).1,
       { m with
          mode := APP_MODE_WORK
          keymap := { m.keymap with
            start := m.keymap.start.SetEnabled false
            finishWork := m.keymap.finishWork.SetEnabled true }
          stopwatch := (stopwatch.NewWithInterval g Second).2 },
       (stopwatch.NewWithInterval g Second).2.Init) := by
  simp [model.Update, hq, hr, hw, hf, hs]

theorem Matches_quit_main (k : String) :
    key.Matches k mainKeymap.quit = (decide (k = "ctrl+c") || decide (k = "q")) := by
  simp [key.Matches, key.Binding.Enabled, mainKeymap, key.NewBinding]

theorem Matches_reset_off (k : String) :
    key.Matches k (mainKeymap.reset.SetEnabled false) = false := by
  simp [key.Matches, key.Binding.Enabled, key.Binding.SetEnabled]

theorem unhandled_forward (g : Globals) (m : model) (msg : Msg) (h : unhandled m msg = true) :
    model.Update g m msg = model.forward g m msg := by
  cases msg with
  | KeyMsg k =>
    simp only [unhandled, Bool.and_eq_true, Bool.not_eq_true'] at h
    obtain ⟨⟨⟨⟨hq, hr⟩, hw⟩, hf⟩, hs⟩ := h
    exact Update_unmatched g m k hq hr hw hf hs
  | timerTimeoutMsg id => simp [unhandled] at h
  | _ => exact Update_nonkey g m _ (by simp) (by simp [isTimeout])

theorem Live_mainState : Live mainState.2 := by
  simp [Live, mainState, mainKeymap, key.NewBinding, key.Binding.SetEnabled]

theorem Live_matches (m : model) (h : Live m) (k : String) :
    key.Matches k m.keymap.quit = (decide (k = "ctrl+c") || decide (k = "q")) ∧
    key.Matches k m.keymap.reset = false ∧
    key.Matches k m.keymap.finishWork = (decide (k = "s") && decide (m.mode = APP_MODE_WORK)) ∧
    key.Matches k m.keymap.finishRest = (decide (k = "s") && decide (m.mode = APP_MODE_REST)) ∧
    key.Matches k m.keymap.start = (decide (k = "s") && !m.keymap.start.disabled) := by
  obtain ⟨hq, hr, h1, h2, h3, h5, h6, _⟩ := h
  refine ⟨?_, ?_, ?_, ?_, ?_⟩
  · rw [hq]; exact Matches_quit_main k
  · rw [hr]; exact Matches_reset_off k
  · rw [Matches_single k "s" _ h2, h5]; simp
  · rw [Matches_single k "s" _ h3, h6]; simp
  · rw [Matches_single k "s" _ h1]

theorem Live_step (g : Globals) (m : model) (msg : Msg) (h : Live m) :
    Live (model.Update g m msg).2.1 ∧
    (m.mode ≠ APP_MODE_INIT → (model.Update g m msg).2.1.mode ≠ APP_MODE_INIT) ∧
    (msg = Msg.KeyMsg "s" → (model.Update g m msg).2.1.mode = nextMode m.mode msg) := by
  have hL := h
  obtain ⟨hq, hr, h1, h2, h3, h5, h6, h7⟩ := h
  cases msg with
  | KeyMsg k =>
    obtain ⟨mq, mr, mw, mf, ms⟩ := Live_matches m hL k
    by_cases hs : k = "s"
    · subst hs
      cases hm : m.mode <;>
        simp_all [model.Update, Live, nextMode, key.Binding.SetEnabled,
          stopwatch.NewWithInterval, timer.NewWithInterval]
    · by_cases hqk : k = "q" ∨ k = "ctrl+c"
      · have : (decide (k = "ctrl+c") || decide (k = "q")) = true := by
          rcases hqk with hqk | hqk <;> simp [hqk]
        rw [this] at mq
        rw [Update_quit g m k mq]
        simp [Live, hq, hr, h1, h2, h3, h5, h6, hs]
        exact h7
      · push_neg at hqk
        have hf := forward_frame g m (Msg.KeyMsg k)
        rw [Update_unmatched g m k (by simp [mq, hqk]) mr (by simp [mw, hs]) (by simp [mf, hs])
          (by simp [ms, hs])]
        simp [Live, hf, hq, hr, h1, h2, h3, h5, h6, hs]
        exact h7
  | timerTimeoutMsg id =>
    simp [model.Update, Live, key.Binding.SetEnabled, hq, hr, h1, h2, h3]
  | _ =>
    have hf := forward_frame g m
    rw [Update_nonkey g m _ (by simp) (by simp [isTimeout])]
    simp [Live, hf, hq, hr, h1, h2, h3, h5, h6]
    exact h7

theorem Live_run (s : State) (evs : List Msg) (h : Live s.2) :
    Live (run s evs).2 ∧ (s.2.mode ≠ APP_MODE_INIT → (run s evs).2.mode ≠ APP_MODE_INIT) := by
  induction evs generalizing s with
  | nil => exact ⟨h, fun hm => hm⟩
  | cons e l ih =>
    obtain ⟨h1, h2, _⟩ := Live_step s.1 s.2 e h
    obtain ⟨h3, h4⟩ := ih (step s e) h1
    exact ⟨h3, fun hm => h4 (h2 hm)⟩

theorem run_append (s : State) (l₁ l₂ : List Msg) : run s (l₁ ++ l₂) = run (run s l₁) l₂ := by
  simp [run, List.foldl_append]

theorem mode_cases (md : APP_MODE) (h : md ≠ APP_MODE_INIT) :
    md = APP_MODE_WORK ∨ md = APP_MODE_REST := by
  cases md <;> simp_all

theorem data_prefix (a b : String) : List.IsPrefix a.data (a ++ b).data := by
  rw [String.data_append]
  exact List.prefix_append _ _

/-! ## The claims -/

/-- C1: from the model built in main (Idle, start enabled, finishWork,
finishRest and reset disabled), after any finite sequence of `s` presses
and clock ticks the mode is decided by the number n of `s` presses: Idle
if n = 0, Working if n is odd, Resting if n is even and positive. -/
theorem C1_mode_by_number_of_presses (evs : List Msg)
    (h : ∀ e ∈ evs, e = Msg.KeyMsg "s" ∨ isTick e = true) :
    (mainState.2.mode = APP_MODE_INIT ∧ mainState.2.keymap.start.Enabled = true ∧
      mainState.2.keymap.finishWork.Enabled = false ∧
      mainState.2.keymap.finishRest.Enabled = false ∧
      mainState.2.keymap.reset.Enabled = false) ∧
    (evs.count (Msg.KeyMsg "s") = 0 → (run mainState evs).2.mode = APP_MODE_INIT) ∧
    (evs.count (Msg.KeyMsg "s") % 2 = 1 → (run mainState evs).2.mode = APP_MODE_WORK) ∧
    (0 < evs.count (Msg.KeyMsg "s") ∧ evs.count (Msg.KeyMsg "s") % 2 = 0 →
      (run mainState evs).2.mode = APP_MODE_REST) := by
  have hm := (run_presses_ticks evs h).2
  refine ⟨by decide, ?_, ?_, ?_⟩
  · intro h0
    rw [hm, h0]; rfl
  · intro h1
    have h0 : evs.count (Msg.KeyMsg "s") ≠ 0 := by omega
    rw [hm]; simp [modeAfterPresses, h0, h1]
  · rintro ⟨hp, h2⟩
    have h0 : evs.count (Msg.KeyMsg "s") ≠ 0 := by omega
    rw [hm]; simp [modeAfterPresses, h0, h2]

/-- Witness of C1: `s`, tick, `s`, `s`, tick has three presses and ends in
Working. -/
theorem C1_mode_by_number_of_presses_witness :
    (∀ e ∈ [Msg.KeyMsg "s", Msg.stopwatchTickMsg 2 0, Msg.KeyMsg "s", Msg.KeyMsg "s",
        Msg.timerTickMsg 2 0 false], e = Msg.KeyMsg "s" ∨ isTick e = true) ∧
    (run mainState [Msg.KeyMsg "s", Msg.stopwatchTickMsg 2 0, Msg.KeyMsg "s", Msg.KeyMsg "s",
        Msg.timerTickMsg 2 0 false]).2.mode = APP_MODE_WORK :=
  ⟨by set_option maxRecDepth 100000 in decide,
   (C1_mode_by_number_of_presses
      [Msg.KeyMsg "s", Msg.stopwatchTickMsg 2 0, Msg.KeyMsg "s", Msg.KeyMsg "s",
        Msg.timerTickMsg 2 0 false] (by set_option maxRecDepth 100000 in decide)).2.2.1
      (by decide)⟩

/-- C2 (as stated, refuted): after three seconds of work the rest timer
installed by finishWork has total 0, not 3 × 0.25 = 0.75 seconds. -/
theorem C2_counterexample :
    (workedSeconds 3).2.mode = APP_MODE_WORK ∧
    (workedSeconds 3).2.stopwatch.Elapsed = 3 * Second ∧
    (step (workedSeconds 3) (Msg.KeyMsg "s")).2.timer.Timeout = 0 ∧
    (step (workedSeconds 3) (Msg.KeyMsg "s")).2.timer.Timeout.Seconds ≠
      (workedSeconds 3).2.stopwatch.Elapsed.Seconds * restRatio := by
  set_option maxRecDepth 100000 in
  have ht : (step (workedSeconds 3) (Msg.KeyMsg "s")).2.timer.Timeout = 0 := by
    show (model.Update _ _ _).2.1.timer.Timeout = 0
    rw [finishWork_whole (workedSeconds 3).1 (workedSeconds 3).2 "s" 3 (by decide) (by decide)
      (by decide) (by decide) (by decide)]
    decide
  have he : (workedSeconds 3).2.stopwatch.Elapsed = ((3 : ℕ) : Int) * Second := by
    set_option maxRecDepth 100000 in decide
  refine ⟨by set_option maxRecDepth 100000 in decide,
    by set_option maxRecDepth 100000 in decide, ht, ?_⟩
  rw [ht, he, Seconds_whole]
  norm_num [Duration.Seconds, restRatio]

/-- C2 (amended): for a work clock with E whole seconds elapsed, finishWork
installs a rest timer whose total is E × 0.25 seconds with the fraction
discarded: it is the floor of E × 0.25, never more than E × 0.25, and equal
to E × 0.25 exactly when E is a multiple of 4. -/
theorem C2_rest_is_truncated_quarter (g : Globals) (m : model) (k : String) (E : ℕ)
    (hq : key.Matches k m.keymap.quit = false) (hr : key.Matches k m.keymap.reset = false)
    (hw : key.Matches k m.keymap.finishWork = true)
    (hE : m.stopwatch.Elapsed = (E : Int) * Second) (hrange : (E : Int) * Second < 2 ^ 63) :
    (model.Update g m (Msg.KeyMsg k)).2.1.timer.Timeout.Seconds =
      (⌊m.stopwatch.Elapsed.Seconds * restRatio⌋ : ℚ) ∧
    (model.Update g m (Msg.KeyMsg k)).2.1.timer.Timeout.Seconds ≤
      m.stopwatch.Elapsed.Seconds * restRatio ∧
    ((model.Update g m (Msg.KeyMsg k)).2.1.timer.Timeout.Seconds =
      m.stopwatch.Elapsed.Seconds * restRatio ↔ E % 4 = 0) := by
  rw [finishWork_whole g m k E hq hr hw hE hrange, hE]
  simp only [Seconds_whole, floor_quarter]
  refine ⟨(Int.cast_natCast _).symm, ?_, quarter_exact_iff E⟩
  have := Int.floor_le ((E : ℚ) * restRatio)
  rw [floor_quarter] at this
  exact_mod_cast this

/-- Witness of C2 (amended): five seconds of work give a one second rest. -/
theorem C2_rest_is_truncated_quarter_witness :
    (key.Matches "s" (workedSeconds 5).2.keymap.quit = false ∧
      key.Matches "s" (workedSeconds 5).2.keymap.reset = false ∧
      key.Matches "s" (workedSeconds 5).2.keymap.finishWork = true ∧
      (workedSeconds 5).2.stopwatch.Elapsed = ((5 : ℕ) : Int) * Second ∧
      ((5 : ℕ) : Int) * Second < 2 ^ 63) ∧
    (model.Update (workedSeconds 5).1 (workedSeconds 5).2 (Msg.KeyMsg "s")).2.1.timer.Timeout.Seconds
      ≤ (workedSeconds 5).2.stopwatch.Elapsed.Seconds * restRatio :=
  ⟨by set_option maxRecDepth 100000 in decide,
   (C2_rest_is_truncated_quarter (workedSeconds 5).1 (workedSeconds 5).2 "s" 5
      (by set_option maxRecDepth 100000 in decide) (by set_option maxRecDepth 100000 in decide)
      (by set_option maxRecDepth 100000 in decide) (by set_option maxRecDepth 100000 in decide)
      (by decide)).2.1⟩

/-- C3: for a work clock with E whole seconds elapsed, finishWork installs
a rest timer with a one second interval and a total of floor(E / 4) whole
seconds; E = 40 gives 10 seconds, E = 0 gives 0, and every E < 4 gives a
zero-length rest. -/
theorem C3_rest_whole_seconds (g : Globals) (m : model) (k : String) (E : ℕ)
    (hq : key.Matches k m.keymap.quit = false) (hr : key.Matches k m.keymap.reset = false)
    (hw : key.Matches k m.keymap.finishWork = true)
    (hE : m.stopwatch.Elapsed = (E : Int) * Second) (hrange : (E : Int) * Second < 2 ^ 63) :
    (model.Update g m (Msg.KeyMsg k)).2.1.timer.Interval = Second ∧
    (model.Update g m (Msg.KeyMsg k)).2.1.timer.Timeout = ((E / 4 : ℕ) : Int) * Second ∧
    (E = 40 → (model.Update g m (Msg.KeyMsg k)).2.1.timer.Timeout = 10 * Second) ∧
    (E = 0 → (model.Update g m (Msg.KeyMsg k)).2.1.timer.Timeout = 0) ∧
    (E < 4 → (model.Update g m (Msg.KeyMsg k)).2.1.timer.Timeout = 0) := by
  rw [finishWork_whole g m k E hq hr hw hE hrange]
  refine ⟨rfl, rfl, ?_, ?_, ?_⟩
  · intro h; subst h; rfl
  · intro h; subst h; rfl
  · intro h
    have : E / 4 = 0 := by omega
    simp [this]

/-- Witness of C3 (scenario A): start, forty ticks, finishWork gives a rest
of ten seconds. -/
theorem C3_rest_whole_seconds_witness :
    (key.Matches "s" (workedSeconds 40).2.keymap.quit = false ∧
      key.Matches "s" (workedSeconds 40).2.keymap.reset = false ∧
      key.Matches "s" (workedSeconds 40).2.keymap.finishWork = true ∧
      (workedSeconds 40).2.stopwatch.Elapsed = ((40 : ℕ) : Int) * Second ∧
      ((40 : ℕ) : Int) * Second < 2 ^ 63) ∧
    (model.Update (workedSeconds 40).1 (workedSeconds 40).2
      (Msg.KeyMsg "s")).2.1.timer.Timeout = 10 * Second :=
  ⟨by set_option maxRecDepth 100000 in decide,
   (C3_rest_whole_seconds (workedSeconds 40).1 (workedSeconds 40).2 "s" 40
      (by set_option maxRecDepth 100000 in decide) (by set_option maxRecDepth 100000 in decide)
      (by set_option maxRecDepth 100000 in decide) (by set_option maxRecDepth 100000 in decide)
      (by decide)).2.2.1 rfl⟩

/-- C4: in every state reachable from the model of main by key presses
(any key), ticks and other messages, expiry messages arriving only while
Resting, exactly one of start, finishWork, finishRest is enabled, the one
matching the mode: start iff Idle, finishWork iff Working, finishRest iff
Resting. -/
theorem C4_exactly_one_binding_enabled (s : State) (h : Reachable s) :
    (s.2.keymap.start.Enabled = true ↔ s.2.mode = APP_MODE_INIT) ∧
    (s.2.keymap.finishWork.Enabled = true ↔ s.2.mode = APP_MODE_WORK) ∧
    (s.2.keymap.finishRest.Enabled = true ↔ s.2.mode = APP_MODE_REST) ∧
    ([s.2.keymap.start, s.2.keymap.finishWork, s.2.keymap.finishRest].filter
      key.Binding.Enabled).length = 1 := by
  have hw := Reachable_Wired s h
  obtain ⟨c1, c2, c3⟩ := Wired_CoreConsistent s.2 hw
  refine ⟨c1, c2, c3, ?_⟩
  cases hm : s.2.mode <;> simp [hm] at c1 c2 c3 <;> simp [List.filter, c1, c2, c3]

/-- Witness of C4: after `s`, `s` the state is Resting with only finishRest
enabled. -/
theorem C4_exactly_one_binding_enabled_witness :
    Reachable (step (step mainState (Msg.KeyMsg "s")) (Msg.KeyMsg "s")) ∧
    ((step (step mainState (Msg.KeyMsg "s")) (Msg.KeyMsg "s")).2.keymap.finishRest.Enabled = true ↔
      (step (step mainState (Msg.KeyMsg "s")) (Msg.KeyMsg "s")).2.mode = APP_MODE_REST) :=
  ⟨Reachable.next _ _ (Reachable.next _ _ Reachable.init (by decide)) (by decide),
   (C4_exactly_one_binding_enabled _
      (Reachable.next _ _ (Reachable.next _ _ Reachable.init (by decide)) (by decide))).2.2.1⟩

/-- C5 (the code at the failing input): after `s` from the model of main
the state is reachable and in Working, and the reset binding is still
disabled. -/
theorem C5_reset_disabled_in_working :
    Reachable (step mainState (Msg.KeyMsg "s")) ∧
    (step mainState (Msg.KeyMsg "s")).2.mode = APP_MODE_WORK ∧
    (step mainState (Msg.KeyMsg "s")).2.keymap.reset.Enabled = false :=
  ⟨Reachable.next _ _ Reachable.init (by decide), by decide, by decide⟩

/-- C6 (as stated, refuted): the model of main has consistent availability,
yet after an expiry message the state is Working with start still enabled. -/
theorem C6_counterexample :
    Consistent mainState.2 ∧
    (model.Update mainState.1 mainState.2 (Msg.timerTimeoutMsg 1)).2.1.mode = APP_MODE_WORK ∧
    (model.Update mainState.1 mainState.2 (Msg.timerTimeoutMsg 1)).2.1.keymap.start.Enabled = true ∧
    ¬ Consistent (model.Update mainState.1 mainState.2 (Msg.timerTimeoutMsg 1)).2.1 := by
  decide

/-- C6 (amended): for every state whose finishWork and finishRest bindings
have keys and whose start, finishWork and finishRest availability matches
its mode, and for every message other than an expiry arriving in Idle and
other than a key press matched by the reset binding, the state returned by
Update again has start, finishWork and finishRest availability matching
its mode. -/
theorem C6_core_consistency_preserved (g : Globals) (m : model) (msg : Msg)
    (hk : m.keymap.finishWork.keys ≠ [] ∧ m.keymap.finishRest.keys ≠ [])
    (hc : CoreConsistent m)
    (ht : isTimeout msg = true → m.mode ≠ APP_MODE_INIT)
    (hr : ∀ k, msg = Msg.KeyMsg k → key.Matches k m.keymap.reset = false) :
    CoreConsistent (model.Update g m msg).2.1 :=
  core_preserved g m msg hk hc ht hr

/-- Witness of C6 (amended): finishWork pressed in the Working state that
follows start. -/
theorem C6_core_consistency_preserved_witness :
    ((step mainState (Msg.KeyMsg "s")).2.keymap.finishWork.keys ≠ [] ∧
      (step mainState (Msg.KeyMsg "s")).2.keymap.finishRest.keys ≠ []) ∧
    CoreConsistent (step mainState (Msg.KeyMsg "s")).2 ∧
    key.Matches "s" (step mainState (Msg.KeyMsg "s")).2.keymap.reset = false ∧
    CoreConsistent (model.Update (step mainState (Msg.KeyMsg "s")).1
      (step mainState (Msg.KeyMsg "s")).2 (Msg.KeyMsg "s")).2.1 :=
  ⟨by decide, by decide, by decide,
   C6_core_consistency_preserved (step mainState (Msg.KeyMsg "s")).1
     (step mainState (Msg.KeyMsg "s")).2 (Msg.KeyMsg "s") (by decide) (by decide)
     (fun h => absurd h (by decide)) (fun k hk => by cases hk; decide)⟩

/-- C7 (the code at the failing input): in the Working state reached by
start and three seconds of ticks, the `r` key changes nothing and returns
no effect: the mode stays Working, the elapsed time stays 3 s, start stays
disabled and finishWork stays enabled. -/
theorem C7_reset_key_ignored_in_working :
    (workedSeconds 3).2.mode = APP_MODE_WORK ∧
    model.Update (workedSeconds 3).1 (workedSeconds 3).2 (Msg.KeyMsg "r") =
      ((workedSeconds 3).1, (workedSeconds 3).2, Cmd.none) ∧
    (step (workedSeconds 3) (Msg.KeyMsg "r")).2.mode = APP_MODE_WORK ∧
    (step (workedSeconds 3) (Msg.KeyMsg "r")).2.stopwatch.Elapsed = 3 * Second ∧
    (step (workedSeconds 3) (Msg.KeyMsg "r")).2.keymap.start.Enabled = false ∧
    (step (workedSeconds 3) (Msg.KeyMsg "r")).2.keymap.finishWork.Enabled = true := by
  decide

/-- C8: in the Idle state built in main the `r` key is a no-op: Update
returns the same state (counters, mode, clocks, bindings, quitting flag)
and the nil command. -/
theorem C8_reset_in_initial_state_is_noop :
    mainState.2.mode = APP_MODE_INIT ∧
    model.Update mainState.1 mainState.2 (Msg.KeyMsg "r") =
      (mainState.1, mainState.2, Cmd.none) := by
  decide

/-- C9: in every state where a key press (such as `s`) is dispatched to
the finishRest binding, Update on an expiry message returns the same state
and the same effect as Update on that key press: mode Working, a fresh
work clock, finishWork enabled, finishRest disabled. -/
theorem C9_expiry_same_as_finishRest (g : Globals) (m : model) (k : String) (id : Int)
    (hq : key.Matches k m.keymap.quit = false) (hr : key.Matches k m.keymap.reset = false)
    (hw : key.Matches k m.keymap.finishWork = false)
    (hf : key.Matches k m.keymap.finishRest = true)
    (hk : m.keymap.finishWork.keys ≠ []) :
    model.Update g m (Msg.timerTimeoutMsg id) = model.Update g m (Msg.KeyMsg k) ∧
    (model.Update g m (Msg.KeyMsg k)).2.1.mode = APP_MODE_WORK ∧
    (model.Update g m (Msg.KeyMsg k)).2.1.stopwatch =
      (stopwatch.NewWithInterval g Second).2 ∧
    (model.Update g m (Msg.KeyMsg k)).2.1.stopwatch.Elapsed = 0 ∧
    (model.Update g m (Msg.KeyMsg k)).2.1.keymap.finishWork.Enabled = true ∧
    (model.Update g m (Msg.KeyMsg k)).2.1.keymap.finishRest.Enabled = false := by
  rw [Update_finishRest g m k hq hr hw hf id, Update_timeout]
  exact ⟨rfl, rfl, rfl, rfl, Enabled_SetEnabled_true _ hk, Enabled_SetEnabled_false _⟩

/-- Witness of C9: the Resting state after `s`, `s`. -/
theorem C9_expiry_same_as_finishRest_witness :
    (key.Matches "s" (run mainState [Msg.KeyMsg "s", Msg.KeyMsg "s"]).2.keymap.quit = false ∧
      key.Matches "s" (run mainState [Msg.KeyMsg "s", Msg.KeyMsg "s"]).2.keymap.reset = false ∧
      key.Matches "s" (run mainState [Msg.KeyMsg "s", Msg.KeyMsg "s"]).2.keymap.finishWork = false ∧
      key.Matches "s" (run mainState [Msg.KeyMsg "s", Msg.KeyMsg "s"]).2.keymap.finishRest = true ∧
      (run mainState [Msg.KeyMsg "s", Msg.KeyMsg "s"]).2.keymap.finishWork.keys ≠ []) ∧
    model.Update (run mainState [Msg.KeyMsg "s", Msg.KeyMsg "s"]).1
        (run mainState [Msg.KeyMsg "s", Msg.KeyMsg "s"]).2 (Msg.timerTimeoutMsg 2) =
      model.Update (run mainState [Msg.KeyMsg "s", Msg.KeyMsg "s"]).1
        (run mainState [Msg.KeyMsg "s", Msg.KeyMsg "s"]).2 (Msg.KeyMsg "s") :=
  ⟨by decide,
   (C9_expiry_same_as_finishRest (run mainState [Msg.KeyMsg "s", Msg.KeyMsg "s"]).1
      (run mainState [Msg.KeyMsg "s", Msg.KeyMsg "s"]).2 "s" 2 (by decide) (by decide)
      (by decide) (by decide) (by decide)).1⟩

/-- C10 (as stated, refuted): in the Idle state built in main an expiry
message is not a no-op: the returned state is in Working with finishWork
enabled. -/
theorem C10_counterexample :
    mainState.2.mode = APP_MODE_INIT ∧
    (model.Update mainState.1 mainState.2 (Msg.timerTimeoutMsg 1)).2.1 ≠ mainState.2 ∧
    (model.Update mainState.1 mainState.2 (Msg.timerTimeoutMsg 1)).2.1.mode = APP_MODE_WORK ∧
    mainState.2.keymap.finishWork.Enabled = false ∧
    (model.Update mainState.1 mainState.2
      (Msg.timerTimeoutMsg 1)).2.1.keymap.finishWork.Enabled = true := by
  decide

/-- C10 (amended): a rest-timer expiry is handled in the same way in every
mode, Idle and Working included: the returned state has mode Working,
finishWork switched on, finishRest switched off and a fresh work clock with
zero elapsed time; only the start, reset and quit bindings, the rest timer
and the quitting flag are unchanged. -/
theorem C10_expiry_handled_in_every_mode (g : Globals) (m : model) (id : Int) :
    (model.Update g m (Msg.timerTimeoutMsg id)).2.1.mode = APP_MODE_WORK ∧
    (model.Update g m (Msg.timerTimeoutMsg id)).2.1.keymap.finishWork =
      m.keymap.finishWork.SetEnabled true ∧
    (model.Update g m (Msg.timerTimeoutMsg id)).2.1.keymap.finishRest =
      m.keymap.finishRest.SetEnabled false ∧
    (model.Update g m (Msg.timerTimeoutMsg id)).2.1.stopwatch =
      (stopwatch.NewWithInterval g Second).2 ∧
    (model.Update g m (Msg.timerTimeoutMsg id)).2.1.stopwatch.Elapsed = 0 ∧
    (model.Update g m (Msg.timerTimeoutMsg id)).2.1.keymap.start = m.keymap.start ∧
    (model.Update g m (Msg.timerTimeoutMsg id)).2.1.keymap.reset = m.keymap.reset ∧
    (model.Update g m (Msg.timerTimeoutMsg id)).2.1.keymap.quit = m.keymap.quit ∧
    (model.Update g m (Msg.timerTimeoutMsg id)).2.1.timer = m.timer ∧
    (model.Update g m (Msg.timerTimeoutMsg id)).2.1.quitting = m.quitting := by
  rw [Update_timeout]
  exact ⟨rfl, rfl, rfl, rfl, rfl, rfl, rfl, rfl, rfl, rfl⟩

/-- C11: in every state whose quit binding (keys `ctrl+c` and `q`, as in
main) is enabled, whatever the mode and the other flags, the key `q` or
`ctrl+c` returns the effect `tea.Quit`, sets the quitting flag, and leaves
the mode, both clocks and all bindings unchanged. -/
theorem C11_quit_sets_flag_only (g : Globals) (m : model) (k : String)
    (hkeys : m.keymap.quit.keys = ["ctrl+c", "q"]) (hen : m.keymap.quit.Enabled = true)
    (hk : k = "q" ∨ k = "ctrl+c") :
    (model.Update g m (Msg.KeyMsg k)).2.2 = Cmd.Quit ∧
    (model.Update g m (Msg.KeyMsg k)).2.1.quitting = true ∧
    (model.Update g m (Msg.KeyMsg k)).2.1.mode = m.mode ∧
    (model.Update g m (Msg.KeyMsg k)).2.1.stopwatch = m.stopwatch ∧
    (model.Update g m (Msg.KeyMsg k)).2.1.timer = m.timer ∧
    (model.Update g m (Msg.KeyMsg k)).2.1.keymap = m.keymap ∧
    (model.Update g m (Msg.KeyMsg k)).2.1.help = m.help ∧
    (model.Update g m (Msg.KeyMsg k)).1 = g := by
  have hq : key.Matches k m.keymap.quit = true := by
    rcases hk with hk | hk <;> subst hk <;> simp [key.Matches, hkeys, hen]
  rw [Update_quit g m k hq]
  exact ⟨rfl, rfl, rfl, rfl, rfl, rfl, rfl, rfl⟩

/-- Witness of C11: `q` after three seconds of work. -/
theorem C11_quit_sets_flag_only_witness :
    ((workedSeconds 3).2.keymap.quit.keys = ["ctrl+c", "q"] ∧
      (workedSeconds 3).2.keymap.quit.Enabled = true) ∧
    (model.Update (workedSeconds 3).1 (workedSeconds 3).2 (Msg.KeyMsg "q")).2.2 = Cmd.Quit :=
  ⟨by set_option maxRecDepth 100000 in decide,
   (C11_quit_sets_flag_only (workedSeconds 3).1 (workedSeconds 3).2 "q"
      (by set_option maxRecDepth 100000 in decide) (by set_option maxRecDepth 100000 in decide)
      (Or.inl rfl)).1⟩

/-- C12: in every state in mode Working reached from the model of main by
any messages, whatever the elapsed time of the work clock and hence the
rest duration computed, finishWork followed at once by finishRest (`s`,
`s`) passes through Resting and yields mode Working with a fresh work
clock of zero elapsed time, finishWork enabled and finishRest disabled. -/
theorem C12_finishWork_then_finishRest (evs : List Msg)
    (hm : (run mainState evs).2.mode = APP_MODE_WORK) :
    (run mainState (evs ++ [Msg.KeyMsg "s"])).2.mode = APP_MODE_REST ∧
    (run mainState (evs ++ [Msg.KeyMsg "s", Msg.KeyMsg "s"])).2.mode = APP_MODE_WORK ∧
    (run mainState (evs ++ [Msg.KeyMsg "s", Msg.KeyMsg "s"])).2.stopwatch =
      (stopwatch.NewWithInterval (run mainState (evs ++ [Msg.KeyMsg "s"])).1 Second).2 ∧
    (run mainState (evs ++ [Msg.KeyMsg "s", Msg.KeyMsg "s"])).2.stopwatch.Elapsed = 0 ∧
    (run mainState (evs ++ [Msg.KeyMsg "s", Msg.KeyMsg "s"])).2.keymap.finishWork.Enabled = true ∧
    (run mainState (evs ++ [Msg.KeyMsg "s", Msg.KeyMsg "s"])).2.keymap.finishRest.Enabled = false := by
  have h0 := (Live_run mainState evs Live_mainState).1
  obtain ⟨h1, _, m1⟩ := Live_step (run mainState evs).1 (run mainState evs).2 (Msg.KeyMsg "s") h0
  have m1 := m1 rfl
  rw [hm] at m1
  have e1 : run mainState (evs ++ [Msg.KeyMsg "s"]) = step (run mainState evs) (Msg.KeyMsg "s") :=
    run_snoc _ _ _
  have e2 : run mainState (evs ++ [Msg.KeyMsg "s", Msg.KeyMsg "s"]) =
      step (run mainState (evs ++ [Msg.KeyMsg "s"])) (Msg.KeyMsg "s") := by
    rw [← run_snoc]; simp
  have hr1 : (run mainState (evs ++ [Msg.KeyMsg "s"])).2.mode = APP_MODE_REST := by
    rw [e1]; exact m1
  have hL1 : Live (run mainState (evs ++ [Msg.KeyMsg "s"])).2 := by rw [e1]; exact h1
  obtain ⟨mq, mr, mw, mf, _⟩ := Live_matches _ hL1 "s"
  rw [hr1] at mw mf
  have hk : (run mainState (evs ++ [Msg.KeyMsg "s"])).2.keymap.finishWork.keys ≠ [] := by
    rw [hL1.2.2.2.1]; simp
  refine ⟨hr1, ?_⟩
  rw [e2]
  show (model.Update _ _ _).2.1.mode = _ ∧ (model.Update _ _ _).2.1.stopwatch = _ ∧
    (model.Update _ _ _).2.1.stopwatch.Elapsed = _ ∧
    (model.Update _ _ _).2.1.keymap.finishWork.Enabled = _ ∧
    (model.Update _ _ _).2.1.keymap.finishRest.Enabled = _
  rw [Update_finishRest _ _ "s" (by simpa using mq) mr (by simpa using mw) (by simpa using mf) 0,
    Update_timeout]
  exact ⟨rfl, rfl, rfl, Enabled_SetEnabled_true _ hk, Enabled_SetEnabled_false _⟩

/-- Witness of C12: finishWork and finishRest after three seconds of work. -/
theorem C12_finishWork_then_finishRest_witness :
    (run mainState [Msg.KeyMsg "s", Msg.stopwatchStartStopMsg 2 true, Msg.stopwatchTickMsg 2 0,
      Msg.stopwatchTickMsg 2 1, Msg.stopwatchTickMsg 2 2]).2.mode = APP_MODE_WORK ∧
    (run mainState ([Msg.KeyMsg "s", Msg.stopwatchStartStopMsg 2 true, Msg.stopwatchTickMsg 2 0,
      Msg.stopwatchTickMsg 2 1, Msg.stopwatchTickMsg 2 2] ++
        [Msg.KeyMsg "s", Msg.KeyMsg "s"])).2.stopwatch.Elapsed = 0 :=
  ⟨by set_option maxRecDepth 100000 in decide,
   (C12_finishWork_then_finishRest [Msg.KeyMsg "s", Msg.stopwatchStartStopMsg 2 true,
      Msg.stopwatchTickMsg 2 0, Msg.stopwatchTickMsg 2 1, Msg.stopwatchTickMsg 2 2]
      (by set_option maxRecDepth 100000 in decide)).2.2.2.1⟩

/-- C13: for every state and every message that is neither an expiry nor a
key press matched by an enabled binding (every clock tick is such a
message), Update leaves the counters, the mode, the quitting flag and all
bindings unchanged; in Idle the whole state is unchanged and the command
is nil, in Working only the work clock may change (it receives the
message), and in Resting only the rest timer may change. -/
theorem C13_unhandled_message_frame (g : Globals) (m : model) (msg : Msg)
    (h : unhandled m msg = true) :
    (∀ t, isTick t = true → unhandled m t = true) ∧
    (model.Update g m msg).1 = g ∧
    (model.Update g m msg).2.1.mode = m.mode ∧
    (model.Update g m msg).2.1.quitting = m.quitting ∧
    (model.Update g m msg).2.1.keymap = m.keymap ∧
    (m.mode = APP_MODE_INIT →
      (model.Update g m msg).2.1 = m ∧ (model.Update g m msg).2.2 = Cmd.none) ∧
    (m.mode = APP_MODE_WORK →
      (model.Update g m msg).2.1 = { m with stopwatch := (m.stopwatch.Update msg).1 } ∧
      (model.Update g m msg).2.2 = (m.stopwatch.Update msg).2) ∧
    (m.mode = APP_MODE_REST →
      (model.Update g m msg).2.1 = { m with timer := (m.timer.Update msg).1 } ∧
      (model.Update g m msg).2.2 = (m.timer.Update msg).2) := by
  rw [unhandled_forward g m msg h]
  obtain ⟨f0, f1, f2, f3, _⟩ := forward_frame g m msg
  refine ⟨?_, f0, f1, f3, f2, ?_, ?_, ?_⟩
  · intro t ht
    cases t <;> simp_all [isTick, unhandled]
  · intro hm; simp [model.forward, hm]
  · intro hm; simp [model.forward, hm]
  · intro hm; simp [model.forward, hm]

/-- Witness of C13: the unbound key `x` after three seconds of work. -/
theorem C13_unhandled_message_frame_witness :
    unhandled (workedSeconds 3).2 (Msg.KeyMsg "x") = true ∧
    (model.Update (workedSeconds 3).1 (workedSeconds 3).2 (Msg.KeyMsg "x")).2.1.mode =
      (workedSeconds 3).2.mode :=
  ⟨by set_option maxRecDepth 100000 in decide,
   (C13_unhandled_message_frame (workedSeconds 3).1 (workedSeconds 3).2 (Msg.KeyMsg "x")
      (by set_option maxRecDepth 100000 in decide)).2.2.1⟩

/-- C14: every transition that enters Working (the expiry branch, the
finishRest case and the start case of the key switch) sets the mode to
Working, replaces the work clock with a freshly created one (zero elapsed,
one second interval) and returns that clock's start effect; the outcome
does not depend on the previous work clock. -/
theorem C14_entering_working_installs_fresh_clock (g : Globals) (m : model) (msg : Msg)
    (h : entersWorking m msg = true) :
    (model.Update g m msg).2.1.mode = APP_MODE_WORK ∧
    (model.Update g m msg).2.1.stopwatch = (stopwatch.NewWithInterval g Second).2 ∧
    (model.Update g m msg).2.1.stopwatch.Elapsed = 0 ∧
    (model.Update g m msg).2.1.stopwatch.Interval = Second ∧
    (model.Update g m msg).2.1.stopwatch.running = false ∧
    (model.Update g m msg).2.2 = (model.Update g m msg).2.1.stopwatch.Start ∧
    (∀ w : stopwatch.Model,
      model.Update g { m with stopwatch := w } msg = model.Update g m msg) := by
  cases msg with
  | timerTimeoutMsg id =>
    refine ⟨rfl, rfl, rfl, rfl, rfl, rfl, fun w => rfl⟩
  | KeyMsg k =>
    simp only [entersWorking, Bool.and_eq_true, Bool.not_eq_true', Bool.or_eq_true] at h
    obtain ⟨⟨⟨hq, hr⟩, hw⟩, hfs⟩ := h
    by_cases hf : key.Matches k m.keymap.finishRest = true
    · refine ⟨?_, ?_, ?_, ?_, ?_, ?_, ?_⟩ <;>
        first
        | (intro w; simp [model.Update, hq, hr, hw, hf])
        | (rw [Update_finishRest g m k hq hr hw hf 0, Update_timeout]; try rfl)
    · have hf' : key.Matches k m.keymap.finishRest = false := by simpa using hf
      have hs : key.Matches k m.keymap.start = true := by
        rcases hfs with h | h
        · exact absurd h hf
        · exact h
      refine ⟨?_, ?_, ?_, ?_, ?_, ?_, ?_⟩ <;>
        first
        | (intro w; simp [model.Update, hq, hr, hw, hf', hs])
        | (rw [Update_start g m k hq hr hw hf' hs]; try rfl)
  | _ => simp [entersWorking] at h

/-- Witness of C14: start in the model of main. -/
theorem C14_entering_working_installs_fresh_clock_witness :
    entersWorking mainState.2 (Msg.KeyMsg "s") = true ∧
    (model.Update mainState.1 mainState.2 (Msg.KeyMsg "s")).2.1.stopwatch.Elapsed = 0 :=
  ⟨by decide,
   (C14_entering_working_installs_fresh_clock mainState.1 mainState.2 (Msg.KeyMsg "s")
      (by decide)).2.2.1⟩

/-- C15: once an `s` has been pressed the mode is never Idle again: for all
message sequences `pre` and `post` (any keys, `r` included, ticks, expiry
messages in any mode), the state after `pre`, `s`, `post` from the model of
main is in Working or Resting, and its reset binding is still disabled. -/
theorem C15_never_back_to_idle (pre post : List Msg) :
    ((run mainState (pre ++ Msg.KeyMsg "s" :: post)).2.mode = APP_MODE_WORK ∨
      (run mainState (pre ++ Msg.KeyMsg "s" :: post)).2.mode = APP_MODE_REST) ∧
    (run mainState (pre ++ Msg.KeyMsg "s" :: post)).2.keymap.reset.Enabled = false := by
  have h0 := (Live_run mainState pre Live_mainState).1
  obtain ⟨h1, _, h2⟩ :=
    Live_step (run mainState pre).1 (run mainState pre).2 (Msg.KeyMsg "s") h0
  have h3 : (step (run mainState pre) (Msg.KeyMsg "s")).2.mode ≠ APP_MODE_INIT := by
    show (model.Update _ _ _).2.1.mode ≠ _
    rw [h2 rfl]
    cases (run mainState pre).2.mode <;> simp [nextMode]
  obtain ⟨h4, h5⟩ := Live_run (step (run mainState pre) (Msg.KeyMsg "s")) post h1
  have e : run mainState (pre ++ Msg.KeyMsg "s" :: post) =
      run (step (run mainState pre) (Msg.KeyMsg "s")) post := by
    rw [run_append]; rfl
  rw [e]
  refine ⟨mode_cases _ (h5 h3), ?_⟩
  rw [h4.2.1]
  rfl

/-- C16: in every state whose reset binding (key `r`) is enabled and whose
quit binding does not match `r`, the key `r` sets the mode to Idle and
changes nothing else: counters, both clocks, all bindings and the quitting
flag are unchanged (the command returned is the stopwatch reset in Working
and the timer stop otherwise); so a Working state with finishWork enabled and start
disabled becomes an Idle state with finishWork still enabled and start
still disabled. -/
theorem C16_reset_changes_mode_only (g : Globals) (m : model)
    (hq : key.Matches "r" m.keymap.quit = false)
    (hkeys : m.keymap.reset.keys = ["r"]) (hen : m.keymap.reset.Enabled = true) :
    (model.Update g m (Msg.KeyMsg "r")).1 = g ∧
    (model.Update g m (Msg.KeyMsg "r")).2.2 =
      (if m.mode = APP_MODE_WORK then m.stopwatch.Reset else m.timer.Stop) ∧
    (model.Update g m (Msg.KeyMsg "r")).2.1 = { m with mode := APP_MODE_INIT } ∧
    (model.Update g m (Msg.KeyMsg "r")).2.1.mode = APP_MODE_INIT ∧
    (model.Update g m (Msg.KeyMsg "r")).2.1.keymap = m.keymap ∧
    (model.Update g m (Msg.KeyMsg "r")).2.1.stopwatch = m.stopwatch ∧
    (model.Update g m (Msg.KeyMsg "r")).2.1.timer = m.timer ∧
    (model.Update g m (Msg.KeyMsg "r")).2.1.quitting = m.quitting ∧
    (m.mode = APP_MODE_WORK → m.keymap.finishWork.Enabled = true →
      m.keymap.start.Enabled = false →
      (model.Update g m (Msg.KeyMsg "r")).2.1.mode = APP_MODE_INIT ∧
      (model.Update g m (Msg.KeyMsg "r")).2.1.keymap.finishWork.Enabled = true ∧
      (model.Update g m (Msg.KeyMsg "r")).2.1.keymap.start.Enabled = false) := by
  have hr : key.Matches "r" m.keymap.reset = true := by
    simp [key.Matches, hkeys, hen]
  rw [Update_reset g m "r" hq hr]
  exact ⟨rfl, rfl, rfl, rfl, rfl, rfl, rfl, rfl, fun _ hw hs => ⟨rfl, hw, hs⟩⟩

/-- Witness of C16: the Working state after `s` with the reset binding
switched on by hand. -/
theorem C16_reset_changes_mode_only_witness :
    (key.Matches "r" workingWithReset.2.keymap.quit = false ∧
      workingWithReset.2.keymap.reset.keys = ["r"] ∧
      workingWithReset.2.keymap.reset.Enabled = true ∧
      workingWithReset.2.mode = APP_MODE_WORK) ∧
    (model.Update workingWithReset.1 workingWithReset.2 (Msg.KeyMsg "r")).2.1.mode =
      APP_MODE_INIT ∧
    (model.Update workingWithReset.1 workingWithReset.2
      (Msg.KeyMsg "r")).2.1.keymap.finishWork.Enabled = true ∧
    (model.Update workingWithReset.1 workingWithReset.2
      (Msg.KeyMsg "r")).2.1.keymap.start.Enabled = false :=
  ⟨by decide,
   (C16_reset_changes_mode_only workingWithReset.1 workingWithReset.2 (by decide) (by decide)
      (by decide)).2.2.2.2.2.2.2.2 (by decide) (by decide) (by decide)⟩

/-- C17: with the three `s` bindings of main and neither quit nor reset
matching `s`, the transition on `s` is decided by the enablement flags
alone, in the order finishWork, finishRest, start, whatever the mode:
finishWork enabled gives Resting; otherwise finishRest enabled gives
Working; otherwise start enabled gives Working; and with none of the three
enabled the mode and the bindings are unchanged. -/
theorem C17_s_dispatch_by_flags (g : Globals) (m : model)
    (hq : key.Matches "s" m.keymap.quit = false) (hr : key.Matches "s" m.keymap.reset = false)
    (hks : m.keymap.start.keys = ["s"]) (hkw : m.keymap.finishWork.keys = ["s"])
    (hkf : m.keymap.finishRest.keys = ["s"]) :
    (m.keymap.finishWork.Enabled = true →
      (model.Update g m (Msg.KeyMsg "s")).2.1.mode = APP_MODE_REST) ∧
    (m.keymap.finishWork.Enabled = false → m.keymap.finishRest.Enabled = true →
      (model.Update g m (Msg.KeyMsg "s")).2.1.mode = APP_MODE_WORK) ∧
    (m.keymap.finishWork.Enabled = false → m.keymap.finishRest.Enabled = false →
      m.keymap.start.Enabled = true →
      (model.Update g m (Msg.KeyMsg "s")).2.1.mode = APP_MODE_WORK) ∧
    (m.keymap.finishWork.Enabled = false → m.keymap.finishRest.Enabled = false →
      m.keymap.start.Enabled = false →
      (model.Update g m (Msg.KeyMsg "s")).2.1.mode = m.mode ∧
      (model.Update g m (Msg.KeyMsg "s")).2.1.keymap = m.keymap) := by
  have mw : key.Matches "s" m.keymap.finishWork = m.keymap.finishWork.Enabled := by
    simp [key.Matches, hkw]
  have mf : key.Matches "s" m.keymap.finishRest = m.keymap.finishRest.Enabled := by
    simp [key.Matches, hkf]
  have ms : key.Matches "s" m.keymap.start = m.keymap.start.Enabled := by
    simp [key.Matches, hks]
  refine ⟨?_, ?_, ?_, ?_⟩
  · intro ew
    rw [ew] at mw
    exact (Update_finishWork g m "s" hq hr mw).1
  · intro ew ef
    rw [ew] at mw; rw [ef] at mf
    rw [Update_finishRest g m "s" hq hr mw mf 0, Update_timeout]
  · intro ew ef es
    rw [ew] at mw; rw [ef] at mf; rw [es] at ms
    rw [Update_start g m "s" hq hr mw mf ms]
  · intro ew ef es
    rw [ew] at mw; rw [ef] at mf; rw [es] at ms
    rw [Update_unmatched g m "s" hq hr mw mf ms]
    obtain ⟨_, f1, f2, _⟩ := forward_frame g m (Msg.KeyMsg "s")
    exact ⟨f1, f2⟩

/-- Witness of C17: after an expiry in Idle the state is Working with both
start and finishWork enabled; `s` goes to Resting. -/
theorem C17_s_dispatch_by_flags_witness :
    (key.Matches "s" (step mainState (Msg.timerTimeoutMsg 1)).2.keymap.quit = false ∧
      key.Matches "s" (step mainState (Msg.timerTimeoutMsg 1)).2.keymap.reset = false ∧
      (step mainState (Msg.timerTimeoutMsg 1)).2.keymap.start.keys = ["s"] ∧
      (step mainState (Msg.timerTimeoutMsg 1)).2.keymap.finishWork.keys = ["s"] ∧
      (step mainState (Msg.timerTimeoutMsg 1)).2.keymap.finishRest.keys = ["s"] ∧
      (step mainState (Msg.timerTimeoutMsg 1)).2.keymap.start.Enabled = true ∧
      (step mainState (Msg.timerTimeoutMsg 1)).2.keymap.finishWork.Enabled = true) ∧
    (model.Update (step mainState (Msg.timerTimeoutMsg 1)).1
      (step mainState (Msg.timerTimeoutMsg 1)).2 (Msg.KeyMsg "s")).2.1.mode = APP_MODE_REST :=
  ⟨by decide,
   (C17_s_dispatch_by_flags (step mainState (Msg.timerTimeoutMsg 1)).1
      (step mainState (Msg.timerTimeoutMsg 1)).2 (by decide) (by decide) (by decide) (by decide)
      (by decide)).1 (by decide)⟩

/-- C18: View renders by quitting flag and mode: with quitting set the
string is empty; otherwise it is the idle prompt
`You can start your work session any time` and a newline in Idle, or
`Work session: ` and the rendered work clock in Working, or
`Rest session: ` and the rendered rest timer in Resting, in each case
followed by the help line, which is a newline and the short help of the
five bindings. -/
theorem C18_view_by_mode (r : Renderers) (m : model) :
    (m.quitting = true → m.View r = "") ∧
    (m.quitting = false → m.mode = APP_MODE_INIT →
      m.View r = "You can start your work session any time\n" ++ m.helpView r ∧
      List.IsPrefix "You can start your work session any time\n".data (m.View r).data) ∧
    (m.quitting = false → m.mode = APP_MODE_WORK →
      m.View r = "Work session: " ++ (r.stopwatchView m.stopwatch ++ "\n") ++ m.helpView r ∧
      List.IsPrefix "Work session: ".data (m.View r).data) ∧
    (m.quitting = false → m.mode = APP_MODE_REST →
      m.View r = "Rest session: " ++ (r.timerView m.timer ++ "\n") ++ m.helpView r ∧
      List.IsPrefix "Rest session: ".data (m.View r).data) ∧
    m.helpView r = "\n" ++ r.ShortHelpView m.help
      [m.keymap.start, m.keymap.finishWork, m.keymap.finishRest, m.keymap.reset,
        m.keymap.quit] := by
  refine ⟨?_, ?_, ?_, ?_, rfl⟩
  · intro hq; simp [model.View, hq]
  · intro hq hm
    have e : m.View r = "You can start your work session any time\n" ++ m.helpView r := by
      simp [model.View, hq, hm]
    exact ⟨e, e ▸ data_prefix _ _⟩
  · intro hq hm
    have e : m.View r =
        "Work session: " ++ (r.stopwatchView m.stopwatch ++ "\n") ++ m.helpView r := by
      simp [model.View, hq, hm]
    refine ⟨e, ?_⟩
    rw [e, String.append_assoc]
    exact data_prefix _ _
  · intro hq hm
    have e : m.View r =
        "Rest session: " ++ (r.timerView m.timer ++ "\n") ++ m.helpView r := by
      simp [model.View, hq, hm]
    refine ⟨e, ?_⟩
    rw [e, String.append_assoc]
    exact data_prefix _ _

end Pomodev
